import Mathlib

set_option maxHeartbeats 1000000

/-!
Shallow embedding of the SmartInventoryTracker server core: the in-memory
storage layer (`server/storage.ts`, class `MemStorage`) and the HTTP route
handlers that sit in front of it (`server/perplexityApi.ts`,
`registerRoutes`).  JavaScript `Map` objects are modelled as
insertion-ordered association lists with the usual `get` / `set` / `delete`
semantics; `async` methods are modelled as pure state-passing functions;
the wall clock (`new Date()`) and the bcrypt comparison are passed in as
explicit parameters.
-/

/-- JS `Map.prototype.get`: value of the first (unique) entry whose key
matches, or `undefined` (`none`). -/
def mapGet {α β : Type} [BEq α] (m : List (α × β)) (k : α) : Option β :=
  (m.find? (fun p => p.1 == k)).map (fun p => p.2)

/-- JS `Map.prototype.has`. -/
def mapHas {α β : Type} [BEq α] (m : List (α × β)) (k : α) : Bool :=
  m.any (fun p => p.1 == k)

/-- JS `Map.prototype.set`: replaces the value in place when the key is
already present (keeping insertion order), otherwise appends a new entry. -/
def mapSet {α β : Type} [BEq α] (m : List (α × β)) (k : α) (v : β) : List (α × β) :=
  if mapHas m k then m.map (fun p => if p.1 == k then (k, v) else p)
  else m ++ [(k, v)]

/-- JS `Map.prototype.delete`. -/
def mapDelete {α β : Type} [BEq α] (m : List (α × β)) (k : α) : List (α × β) :=
  m.filter (fun p => p.1 != k)

/-- JS `Map.prototype.values()` (in insertion order), as used by
`Array.from(map.values())`. -/
def mapValues {α β : Type} (m : List (α × β)) : List β :=
  m.map (fun p => p.2)

/-- `shared/schema.ts`: a `users` row. -/
structure User where
  id : Nat
  username : String
  password : String
deriving DecidableEq

/-- `shared/schema.ts`: `InsertUser` (the fields a caller supplies). -/
structure InsertUser where
  username : String
  password : String
deriving DecidableEq

/-- `shared/schema.ts`: a `favorites` row.  `createdAt` is a timestamp,
modelled as a number of milliseconds. -/
structure Favorite where
  id : Nat
  userId : Nat
  eventId : String
  createdAt : Nat
deriving DecidableEq

/-- `shared/schema.ts`: `InsertFavorite`. -/
structure InsertFavorite where
  userId : Nat
  eventId : String
deriving DecidableEq

/-- `shared/schema.ts`: a `districts` row. -/
structure District where
  id : Nat
  nameJa : String
  nameEn : String
  parentArea : String
  displayOrder : Nat
  value : String
deriving DecidableEq

/-- `shared/schema.ts`: the `Event` interface. -/
structure Event where
  id : String
  titleJa : String
  titleEn : String
  descriptionJa : String
  descriptionEn : String
  startDate : String
  endDate : Option String
  location : String
  district : String
  imageUrl : String
deriving DecidableEq

/-- `shared/schema.ts`: the `SearchParams` interface. -/
structure SearchParams where
  dateFrom : String
  dateTo : String
  district : Option String
deriving DecidableEq

/-- The character for a single decimal digit `n < 10`. -/
def digitChar (n : Nat) : Char := Char.ofNat (48 + n)

/-- Decimal digits of `n`, most significant first, computed with explicit
fuel so that the definition is structurally recursive (fuel `n + 1` always
suffices because the recursive call is on `n / 10 < n`). -/
def natDigitsAux : Nat → Nat → List Char
  | 0, _ => []
  | fuel + 1, n =>
    if n < 10 then [digitChar n]
    else natDigitsAux fuel (n / 10) ++ [digitChar (n % 10)]

/-- Decimal digits of `n`, most significant first. -/
def natDigits (n : Nat) : List Char := natDigitsAux (n + 1) n

/-- The decimal rendering of a natural number, as produced by JS template
interpolation of a nonnegative integer. -/
def natRepr (n : Nat) : String := String.mk (natDigits n)

/-- `storage.ts` lines 112 and 118: the favorites storage key, the JS
template string interpolation of the composite pair. -/
def favKey (userId : Nat) (eventId : String) : String :=
  natRepr userId ++ "-" ++ eventId

/-- `storage.ts`: the private state of class `MemStorage`. -/
structure MemStorage where
  users : List (Nat × User)
  favorites : List (String × Favorite)
  districts : List (Nat × District)
  events : List (String × Event)
  currentUserId : Nat
  currentFavoriteId : Nat
  currentDistrictId : Nat
deriving DecidableEq

/-- The `MemStorage` state as built by the constructor before any district
seeding: empty maps, all id counters at 1. -/
def MemStorage.empty : MemStorage :=
  { users := [], favorites := [], districts := [], events := []
    currentUserId := 1, currentFavoriteId := 1, currentDistrictId := 1 }

/-- `storage.ts` 68-70: `getUser(id)`. -/
def MemStorage.getUser (s : MemStorage) (id : Nat) : Option User :=
  mapGet s.users id

/-- `storage.ts` 72-76: `getUserByUsername(username)`, a linear scan over
`Array.from(this.users.values())`. -/
def MemStorage.getUserByUsername (s : MemStorage) (username : String) : Option User :=
  (mapValues s.users).find? (fun user => user.username == username)

/-- `storage.ts` 78-83: `createUser(userData)`: assigns
`this.currentUserId++`, inserts, returns the new record. -/
def MemStorage.createUser (s : MemStorage) (userData : InsertUser) : User × MemStorage :=
  let id := s.currentUserId
  let user : User := { id, username := userData.username, password := userData.password }
  (user, { s with users := mapSet s.users id user, currentUserId := id + 1 })

/-- `storage.ts` 86-95: `getUserFavorites(userId)`: filter the favorite
values by owner, look each `eventId` up in the event cache, and keep only
the cache hits (`.filter(event => !!event)`). -/
def MemStorage.getUserFavorites (s : MemStorage) (userId : Nat) : List Event :=
  let userFavorites := (mapValues s.favorites).filter (fun fav => fav.userId == userId)
  (userFavorites.map (fun fav => mapGet s.events fav.eventId)).filterMap id

/-- `storage.ts` 97-101: `getFavorite(userId, eventId)`, a linear scan of
the favorite values by field equality. -/
def MemStorage.getFavorite (s : MemStorage) (userId : Nat) (eventId : String) : Option Favorite :=
  (mapValues s.favorites).find?
    (fun fav => fav.userId == userId && fav.eventId == eventId)

/-- `storage.ts` 103-115: `addFavorite(favoriteData)`: assigns
`this.currentFavoriteId++`, stamps `createdAt` with the current time
(passed in as `now`), and stores the record under the composite string
key. -/
def MemStorage.addFavorite (s : MemStorage) (favoriteData : InsertFavorite) (now : Nat) :
    Favorite × MemStorage :=
  let id := s.currentFavoriteId
  let favorite : Favorite :=
    { id, userId := favoriteData.userId, eventId := favoriteData.eventId, createdAt := now }
  let key := favKey favorite.userId favorite.eventId
  (favorite,
    { s with favorites := mapSet s.favorites key favorite, currentFavoriteId := id + 1 })

/-- `storage.ts` 117-120: `removeFavorite(userId, eventId)`: delete by the
composite string key; a silent no-op when absent. -/
def MemStorage.removeFavorite (s : MemStorage) (userId : Nat) (eventId : String) : MemStorage :=
  { s with favorites := mapDelete s.favorites (favKey userId eventId) }

/-- `storage.ts` 123-125: `getAllDistricts()` sorted by `displayOrder`. -/
def MemStorage.getAllDistricts (s : MemStorage) : List District :=
  (mapValues s.districts).mergeSort (fun a b => a.displayOrder ≤ b.displayOrder)

/-- `storage.ts` 127-131: `getDistrictByValue(value)`. -/
def MemStorage.getDistrictByValue (s : MemStorage) (value : String) : Option District :=
  (mapValues s.districts).find? (fun d => d.value == value)

/-- `storage.ts` 133-138: `addDistrict(districtData)`. -/
def MemStorage.addDistrict (s : MemStorage) (districtData : District) : District × MemStorage :=
  let id := s.currentDistrictId
  let district : District := { districtData with id }
  (district, { s with districts := mapSet s.districts id district, currentDistrictId := id + 1 })

/-- `storage.ts` 141-143: `cacheEvent(event)`: upsert keyed by `event.id`. -/
def MemStorage.cacheEvent (s : MemStorage) (event : Event) : MemStorage :=
  { s with events := mapSet s.events event.id event }

/-- `storage.ts` 146-148: `cacheEvents(events)`. -/
def MemStorage.cacheEvents (s : MemStorage) (events : List Event) : MemStorage :=
  events.foldl MemStorage.cacheEvent s

/-- Storage invariant: every favorites map entry is stored under the
composite key derived from its own fields.  This holds for every state
reachable through `MemStorage`'s operations, since `addFavorite` is the
only writer and it derives the key from the record it stores. -/
def FavKeyWF (s : MemStorage) : Prop :=
  ∀ p ∈ s.favorites, p.1 = favKey p.2.userId p.2.eventId

/-- Storage invariant: the favorites map has no duplicate keys.  A JS `Map`
guarantees this by construction. -/
def FavKeysNodup (s : MemStorage) : Prop :=
  (s.favorites.map (fun p => p.1)).Nodup

/-- Storage invariant: every event cache entry is stored under its own
`event.id`, as `cacheEvent` writes it. -/
def EventKeyWF (s : MemStorage) : Prop :=
  ∀ p ∈ s.events, p.1 = p.2.id

/-- The authentication state of an incoming request as seen by the
`isAuthenticated` middleware (`perplexityApi.ts` 371-376):
`req.isAuthenticated()` together with `(req.user as any).id`. -/
inductive AuthState where
  | anon : AuthState
  | authed : Nat → AuthState
deriving DecidableEq

/-- `perplexityApi.ts` 543-551: `GET /api/favorites`.  The middleware
answers 401 without touching the store; otherwise the handler returns 200
with the joined event list.  The body is `none` when there is no list
payload. -/
def getFavoritesRoute (auth : AuthState) (s : MemStorage) :
    (Nat × Option (List Event)) × MemStorage :=
  match auth with
  | .anon => ((401, none), s)
  | .authed userId => ((200, some (MemStorage.getUserFavorites s userId)), s)

/-- `perplexityApi.ts` 553-574: `POST /api/favorites/:eventId`.  401 from
the middleware when unauthenticated; otherwise check for an existing
favorite, answer 400 when found, else insert and answer 201. -/
def postFavoriteRoute (auth : AuthState) (eventId : String) (now : Nat) (s : MemStorage) :
    (Nat × String) × MemStorage :=
  match auth with
  | .anon => ((401, "Unauthorized"), s)
  | .authed userId =>
    match MemStorage.getFavorite s userId eventId with
    | some _ => ((400, "Event already in favorites"), s)
    | none =>
      ((201, "Added to favorites"),
        (MemStorage.addFavorite s { userId, eventId } now).2)

/-- `perplexityApi.ts` 576-588: `DELETE /api/favorites/:eventId`.  401 from
the middleware when unauthenticated; otherwise remove and answer 200. -/
def deleteFavoriteRoute (auth : AuthState) (eventId : String) (s : MemStorage) :
    (Nat × String) × MemStorage :=
  match auth with
  | .anon => ((401, "Unauthorized"), s)
  | .authed userId =>
    ((200, "Removed from favorites"), MemStorage.removeFavorite s userId eventId)

/-- `perplexityApi.ts` 590-601: `GET /api/favorites/check/:eventId`.  401
from the middleware when unauthenticated; otherwise 200 with
`{ isFavorite: !!favorite }`. -/
def checkFavoriteRoute (auth : AuthState) (eventId : String) (s : MemStorage) :
    (Nat × Option Bool) × MemStorage :=
  match auth with
  | .anon => ((401, none), s)
  | .authed userId =>
    ((200, some (MemStorage.getFavorite s userId eventId).isSome), s)

/-- The outcome handed to passport's `done` callback by the local strategy:
either a failure with an `info.message`, or a user. -/
inductive LoginOutcome where
  | failure : String → LoginOutcome
  | success : User → LoginOutcome
deriving DecidableEq

/-- `perplexityApi.ts` 336-354: the passport `LocalStrategy` verify
callback.  `bcryptCompare` stands for `bcrypt.compare` (an external
function of the plaintext and the stored hash). -/
def localStrategyVerify (s : MemStorage) (bcryptCompare : String → String → Bool)
    (username password : String) : LoginOutcome :=
  match MemStorage.getUserByUsername s username with
  | none => .failure "User is not registered"
  | some user =>
    if bcryptCompare password user.password then .success user
    else .failure "Incorrect password"

/-- The response of `POST /api/auth/login`: an error status with a message,
or 200 with the user record (whose password field is omitted from the
serialized body). -/
inductive LoginResponse where
  | err : Nat → String → LoginResponse
  | ok : User → LoginResponse
deriving DecidableEq

/-- `perplexityApi.ts` 441-458: `POST /api/auth/login`.  A strategy failure
is answered 401 with `info.message`; a success establishes the session and
answers 200 with the user. -/
def loginRoute (s : MemStorage) (bcryptCompare : String → String → Bool)
    (username password : String) : LoginResponse :=
  match localStrategyVerify s bcryptCompare username password with
  | .failure msg => .err 401 msg
  | .success user => .ok user

/-- JS falsiness of an optional string query parameter: absent
(`undefined`) or the empty string. -/
def jsFalsyStr : Option String → Bool
  | none => true
  | some s => s == ""

/-- The date regex of `perplexityApi.ts` 499:
`^\d{4}-\d{2}-\d{2}$`. -/
def isDateFormat (s : String) : Bool :=
  match s.data with
  | [y1, y2, y3, y4, h1, m1, m2, h2, d1, d2] =>
    y1.isDigit && y2.isDigit && y3.isDigit && y4.isDigit && h1 == '-' &&
    m1.isDigit && m2.isDigit && h2 == '-' && d1.isDigit && d2.isDigit
  | _ => false

/-- Numeric value of a decimal digit character. -/
def digitVal (c : Char) : Nat := c.toNat - 48

/-- A strictly monotone renumbering of the proleptic Gregorian calendar:
the day count of `(y, m, d)` with the year shifted by +400 so the
computation stays in `Nat`.  Days beyond the end of a month extrapolate
linearly (first of the month plus `d - 1` days), exactly as ECMAScript's
`MakeDay` does for a day field that is syntactically in range but beyond
the month's length. -/
def civilDay (y m d : Nat) : Nat :=
  let ys := y + 400
  let yy := if m ≤ 2 then ys - 1 else ys
  let era := yy / 400
  let yoe := yy % 400
  let mp := (m + 9) % 12
  let doy := (153 * mp + 2) / 5 + (d - 1)
  let doe := yoe * 365 + yoe / 4 - yoe / 100 + doy
  era * 146097 + doe

/-- ECMAScript `new Date(s)` for a string matching `^\d{4}-\d{2}-\d{2}$`,
up to a strictly monotone renumbering of the time value: the date-only ISO
parse accepts `MM` in 01-12 and `DD` in 01-31 and otherwise yields an
Invalid Date (`none`, standing for a `NaN` time value). -/
def jsParseDate (s : String) : Option Nat :=
  match s.data with
  | [y1, y2, y3, y4, _, m1, m2, _, d1, d2] =>
    let y := ((digitVal y1 * 10 + digitVal y2) * 10 + digitVal y3) * 10 + digitVal y4
    let m := digitVal m1 * 10 + digitVal m2
    let d := digitVal d1 * 10 + digitVal d2
    if 1 ≤ m ∧ m ≤ 12 ∧ 1 ≤ d ∧ d ≤ 31 then some (civilDay y m d) else none
  | _ => none

/-- The comparison `new Date(a) > new Date(b)` of `perplexityApi.ts` 507:
any comparison involving an Invalid Date (`NaN`) is false. -/
def jsDateGT (a b : String) : Bool :=
  match jsParseDate a, jsParseDate b with
  | some x, some y => decide (x > y)
  | _, _ => false

/-- The query parameters of `GET /api/events` as they reach the handler:
each may be absent. -/
structure EventsQuery where
  dateFrom : Option String
  dateTo : Option String
  district : Option String
deriving DecidableEq

/-- The observable outcome of the `GET /api/events` handler before any
network activity: either an immediate 400 with a message, or an invocation
of the external fetch (`fetchEvents`) with the validated parameters. -/
inductive EventsResponse where
  | badRequest : String → EventsResponse
  | fetch : SearchParams → EventsResponse
deriving DecidableEq

/-- `perplexityApi.ts` 486-524: the validation prefix of
`GET /api/events`.  Missing (or empty, hence falsy) parameters, a failed
regex test, or an inverted date range answer 400 before `fetchEvents` is
ever called; otherwise the external fetch is invoked. -/
def getEventsRoute (q : EventsQuery) : EventsResponse :=
  if jsFalsyStr q.dateFrom || jsFalsyStr q.dateTo then
    .badRequest "dateFrom and dateTo are required"
  else
    let dateFrom := q.dateFrom.getD ""
    let dateTo := q.dateTo.getD ""
    if !(isDateFormat dateFrom && isDateFormat dateTo) then
      .badRequest "Invalid date format. Please use YYYY-MM-DD format."
    else if jsDateGT dateFrom dateTo then
      .badRequest "dateFrom must be before or equal to dateTo"
    else
      .fetch { dateFrom, dateTo, district := q.district }

/-- The response of `GET /api/events/:id`. -/
inductive EventByIdResponse where
  | notFound : EventByIdResponse
  | ok : Event → EventByIdResponse
  | serverError : EventByIdResponse
deriving DecidableEq

/-- `perplexityApi.ts` 526-540: `GET /api/events/:id`.  The outcome of
`fetchEventById` (an external call) is passed in: a raised error is caught
and answered 500, a null result is answered 404, an event is answered
200. -/
def getEventByIdRoute (fetchResult : Except Unit (Option Event)) : EventByIdResponse :=
  match fetchResult with
  | .error _ => .serverError
  | .ok none => .notFound
  | .ok (some event) => .ok event

/-- The field-equality predicate used by `getFavorite`'s scan. -/
def favPred (userId : Nat) (eventId : String) : Favorite → Bool :=
  fun fav => fav.userId == userId && fav.eventId == eventId

/-- The number of stored favorite records carrying the given composite
pair. -/
def favCount (s : MemStorage) (userId : Nat) (eventId : String) : Nat :=
  (mapValues s.favorites).countP (favPred userId eventId)

/-- Numeric value of a list of decimal digit characters, most significant
first. -/
def digitsVal (l : List Char) : Nat :=
  l.foldl (fun a c => 10 * a + digitVal c) 0

theorem digitVal_digitChar (n : Nat) (h : n < 10) : digitVal (digitChar n) = n := by
  interval_cases n <;> decide

theorem digitChar_ne_dash (n : Nat) (h : n < 10) : digitChar n ≠ '-' := by
  interval_cases n <;> decide

theorem digitsVal_append (l : List Char) (c : Char) :
    digitsVal (l ++ [c]) = 10 * digitsVal l + digitVal c := by
  simp [digitsVal, List.foldl_append]

theorem natDigitsAux_val : ∀ fuel n, n < fuel → digitsVal (natDigitsAux fuel n) = n := by
  intro fuel
  induction fuel with
  | zero => intro n h; omega
  | succ f ih =>
    intro n h
    by_cases h10 : n < 10
    · simp [natDigitsAux, h10, digitsVal, digitVal_digitChar n h10]
    · rw [natDigitsAux, if_neg h10, digitsVal_append, ih (n / 10) (by omega),
        digitVal_digitChar (n % 10) (by omega)]
      omega

theorem digitsVal_natDigits (n : Nat) : digitsVal (natDigits n) = n :=
  natDigitsAux_val (n + 1) n (by omega)

theorem natDigits_inj {m n : Nat} (h : natDigits m = natDigits n) : m = n := by
  have := congrArg digitsVal h
  rwa [digitsVal_natDigits, digitsVal_natDigits] at this

theorem dash_not_mem_natDigitsAux : ∀ fuel n, ('-' : Char) ∉ natDigitsAux fuel n := by
  intro fuel
  induction fuel with
  | zero => intro n; simp [natDigitsAux]
  | succ f ih =>
    intro n hmem
    by_cases h10 : n < 10
    · rw [natDigitsAux, if_pos h10] at hmem
      exact digitChar_ne_dash n h10 (List.mem_singleton.1 hmem).symm
    · rw [natDigitsAux, if_neg h10] at hmem
      rcases List.mem_append.1 hmem with h | h
      · exact ih (n / 10) h
      · exact digitChar_ne_dash (n % 10) (by omega) (List.mem_singleton.1 h).symm

theorem dash_not_mem_natDigits (n : Nat) : ('-' : Char) ∉ natDigits n :=
  dash_not_mem_natDigitsAux (n + 1) n

theorem append_dash_split :
    ∀ (xs xs' ys ys' : List Char), ('-' : Char) ∉ xs → ('-' : Char) ∉ xs' →
      xs ++ '-' :: ys = xs' ++ '-' :: ys' → xs = xs' ∧ ys = ys' := by
  intro xs
  induction xs with
  | nil =>
    intro xs' ys ys' _ hx' heq
    cases xs' with
    | nil => simpa using heq
    | cons a t =>
      simp only [List.nil_append, List.cons_append, List.cons.injEq] at heq
      exact absurd (heq.1 ▸ List.mem_cons_self a t) hx'
  | cons a t ih =>
    intro xs' ys ys' hx hx' heq
    cases xs' with
    | nil =>
      simp only [List.nil_append, List.cons_append, List.cons.injEq] at heq
      exact absurd (heq.1 ▸ List.mem_cons_self a t) hx
    | cons a' t' =>
      simp only [List.cons_append, List.cons.injEq] at heq
      obtain ⟨rfl, heq⟩ := heq
      have hmt : ('-' : Char) ∉ t := fun hm => hx (List.mem_cons_of_mem a hm)
      have hmt' : ('-' : Char) ∉ t' := fun hm => hx' (List.mem_cons_of_mem a hm)
      obtain ⟨rfl, rfl⟩ := ih t' ys ys' hmt hmt' heq
      exact ⟨rfl, rfl⟩

theorem favKey_data (userId : Nat) (eventId : String) :
    (favKey userId eventId).data = natDigits userId ++ '-' :: eventId.data := by
  simp [favKey, natRepr, String.data_append]

/-- The composite favorites key is injective on (natural user id, event id)
pairs: the decimal rendering of the user id contains no dash, so the first
dash of the key separates the two components unambiguously. -/
theorem favKey_inj {u u' : Nat} {e e' : String}
    (h : favKey u e = favKey u' e') : u = u' ∧ e = e' := by
  have hd : (favKey u e).data = (favKey u' e').data := by rw [h]
  rw [favKey_data, favKey_data] at hd
  obtain ⟨h1, h2⟩ :=
    append_dash_split _ _ _ _ (dash_not_mem_natDigits u) (dash_not_mem_natDigits u') hd
  refine ⟨natDigits_inj h1, ?_⟩
  cases e
  cases e'
  exact congrArg String.mk h2

theorem find?_filter_eq {α : Type} (l : List α) (p q : α → Bool)
    (h : ∀ a ∈ l, q a = false → p a = false) :
    (l.filter q).find? p = l.find? p := by
  induction l with
  | nil => rfl
  | cons a t ih =>
    have iht := ih (fun x hx => h x (List.mem_cons_of_mem a hx))
    by_cases hq : q a
    · rw [List.filter_cons_of_pos hq]
      by_cases hp : p a
      · rw [List.find?_cons_of_pos _ hp, List.find?_cons_of_pos _ hp]
      · rw [List.find?_cons_of_neg _ (by simp [hp]), List.find?_cons_of_neg _ (by simp [hp]), iht]
    · have hp : p a = false := h a (List.mem_cons_self a t) (by simpa using hq)
      rw [List.filter_cons_of_neg (by simpa using hq), iht,
        List.find?_cons_of_neg _ (by simp [hp])]

theorem find?_map_eq {α : Type} (l : List α) (g : α → α) (p : α → Bool)
    (h1 : ∀ a ∈ l, p (g a) = p a) (h2 : ∀ a ∈ l, p a = true → g a = a) :
    (l.map g).find? p = l.find? p := by
  induction l with
  | nil => rfl
  | cons a t ih =>
    have iht := ih (fun x hx => h1 x (List.mem_cons_of_mem a hx))
      (fun x hx => h2 x (List.mem_cons_of_mem a hx))
    by_cases hp : p a
    · rw [List.map_cons, List.find?_cons_of_pos _ (by rw [h1 a (List.mem_cons_self a t)]; exact hp),
        List.find?_cons_of_pos _ hp, h2 a (List.mem_cons_self a t) hp]
    · rw [List.map_cons,
        List.find?_cons_of_neg _ (by rw [h1 a (List.mem_cons_self a t)]; simp [hp]),
        List.find?_cons_of_neg _ (by simp [hp]), iht]

theorem find?_append_left_none {α : Type} (l₁ l₂ : List α) (p : α → Bool)
    (h : ∀ a ∈ l₁, p a = false) :
    (l₁ ++ l₂).find? p = l₂.find? p := by
  rw [List.find?_append]
  have h₁ : l₁.find? p = none := List.find?_eq_none.2 (by intro x hx; simp [h x hx])
  rw [h₁, Option.none_or]

theorem mem_mapSet {α β : Type} [BEq α] {m : List (α × β)} {k : α} {v : β} {p : α × β}
    (hp : p ∈ mapSet m k v) : p ∈ m ∨ p = (k, v) := by
  unfold mapSet at hp
  by_cases h : mapHas m k
  · rw [if_pos h] at hp
    obtain ⟨q, hq, hgq⟩ := List.mem_map.1 hp
    by_cases hk : (q.1 == k) = true
    · right; rw [← hgq, if_pos hk]
    · left; rw [← hgq, if_neg hk]; exact hq
  · rw [if_neg h] at hp
    rcases List.mem_append.1 hp with h1 | h1
    · exact Or.inl h1
    · exact Or.inr (List.mem_singleton.1 h1)

theorem mapGet_some {α β : Type} [BEq α] {m : List (α × β)} {k : α} {v : β}
    (h : mapGet m k = some v) : ∃ p ∈ m, (p.1 == k) = true ∧ p.2 = v := by
  unfold mapGet at h
  cases hf : m.find? (fun p => p.1 == k) with
  | none => rw [hf] at h; cases h
  | some p =>
    rw [hf] at h
    have hpk := List.find?_some hf
    refine ⟨p, List.mem_of_find?_eq_some hf, by simpa using hpk, ?_⟩
    simpa using h

theorem getFavorite_eq_find (s : MemStorage) (u : Nat) (e : String) :
    MemStorage.getFavorite s u e = (mapValues s.favorites).find? (favPred u e) := rfl

theorem favorites_addFavorite (s : MemStorage) (d : InsertFavorite) (now : Nat) :
    (MemStorage.addFavorite s d now).2.favorites =
      mapSet s.favorites (favKey d.userId d.eventId)
        { id := s.currentFavoriteId, userId := d.userId, eventId := d.eventId
          createdAt := now } := rfl

/-- C1: for every user id and event id, from any well-keyed store state,
`addFavorite` followed by `removeFavorite` on the same pair leaves
`getFavorite` on that pair returning "not found" (`none`). -/
theorem addFavorite_removeFavorite_getFavorite_none
    (s : MemStorage) (u : Nat) (e : String) (now : Nat) (hwf : FavKeyWF s) :
    MemStorage.getFavorite
      (MemStorage.removeFavorite (MemStorage.addFavorite s ⟨u, e⟩ now).2 u e) u e = none := by
  rw [getFavorite_eq_find]
  apply List.find?_eq_none.2
  intro f hf
  obtain ⟨p, hp, rfl⟩ := List.mem_map.1 hf
  have hdel := List.mem_filter.1 hp
  have hkey : p.1 ≠ favKey u e := by
    have := hdel.2
    simp only [bne_iff_ne, ne_eq] at this
    exact this
  intro hpred
  simp only [favPred, Bool.and_eq_true, beq_iff_eq] at hpred
  obtain ⟨h1, h2⟩ := hpred
  have hmem : p ∈ mapSet s.favorites (favKey u e)
      { id := s.currentFavoriteId, userId := u, eventId := e, createdAt := now } := hdel.1
  rcases mem_mapSet hmem with hin | rfl
  · have := hwf p hin
    rw [h1, h2] at this
    exact hkey this
  · exact hkey rfl

/-- A sample favorite record used by concrete-input witnesses. -/
def wFav : Favorite := { id := 1, userId := 2, eventId := "x", createdAt := 0 }

/-- A sample well-keyed store holding one favorite, used by witnesses. -/
def wStore1 : MemStorage := { MemStorage.empty with favorites := [(favKey 2 "x", wFav)] }

theorem addFavorite_removeFavorite_getFavorite_none_witness :
    FavKeyWF wStore1 ∧
    MemStorage.getFavorite
      (MemStorage.removeFavorite (MemStorage.addFavorite wStore1 ⟨1, "evt-42"⟩ 5).2
        1 "evt-42") 1 "evt-42" = none := by
  have h : FavKeyWF wStore1 := by
    unfold FavKeyWF wStore1 MemStorage.empty wFav
    decide
  exact ⟨h, addFavorite_removeFavorite_getFavorite_none wStore1 1 "evt-42" 5 h⟩

theorem find?_mapValues {α β : Type} (m : List (α × β)) (p : β → Bool) :
    (mapValues m).find? p = (m.find? (fun q => p q.2)).map (fun q => q.2) := by
  unfold mapValues
  rw [List.find?_map]
  rfl

theorem favPred_false_of_ne {u u' : Nat} {e e' : String} (hne : ¬(u = u' ∧ e = e'))
    (f : Favorite) (h1 : f.userId = u) (h2 : f.eventId = e) : favPred u' e' f = false := by
  unfold favPred
  rw [h1, h2]
  by_cases hu : u = u'
  · subst hu
    have he : e ≠ e' := fun hE => hne ⟨rfl, hE⟩
    simp [beq_eq_false_iff_ne, he]
  · simp [beq_eq_false_iff_ne, hu]

theorem find?_entries_mapSet_frame {α β : Type} [BEq α] [LawfulBEq α]
    (m : List (α × β)) (k : α) (v : β) (Q : α × β → Bool)
    (hv : Q (k, v) = false)
    (hk : ∀ q ∈ m, q.1 = k → Q q = false) :
    (mapSet m k v).find? Q = m.find? Q := by
  unfold mapSet
  by_cases hhas : mapHas m k
  · rw [if_pos hhas]
    apply find?_map_eq
    · intro q hq
      by_cases hqk : (q.1 == k) = true
      · have h1 : q.1 = k := by simpa using hqk
        rw [if_pos hqk, hv, hk q hq h1]
      · rw [if_neg hqk]
    · intro q hq hQ
      by_cases hqk : (q.1 == k) = true
      · have h1 : q.1 = k := by simpa using hqk
        rw [hk q hq h1] at hQ
        cases hQ
      · rw [if_neg hqk]
  · rw [if_neg hhas, List.find?_append]
    have hone : List.find? Q [(k, v)] = none := by
      rw [List.find?_cons_of_neg _ (by simp [hv])]
      rfl
    rw [hone, Option.or_none]

theorem find?_entries_mapDelete_frame {α β : Type} [BEq α] [LawfulBEq α]
    (m : List (α × β)) (k : α) (Q : α × β → Bool)
    (hk : ∀ q ∈ m, q.1 = k → Q q = false) :
    (mapDelete m k).find? Q = m.find? Q := by
  unfold mapDelete
  apply find?_filter_eq
  intro q hq hfalse
  exact hk q hq (by simpa [bne_eq_false_iff_eq] using hfalse)

/-- C10: for two distinct (natural-number user id, event id) pairs, the
composite storage keys never collide (the decimal user id contains no dash,
so the key is injective on such pairs), and consequently `addFavorite` and
`removeFavorite` on one pair leave the stored favorite for the other pair
unchanged, in every well-keyed store state. -/
theorem favorite_ops_frame (s : MemStorage) (u u' : Nat) (e e' : String) (now : Nat)
    (hwf : FavKeyWF s) (hne : ¬(u = u' ∧ e = e')) :
    favKey u e ≠ favKey u' e' ∧
    MemStorage.getFavorite (MemStorage.addFavorite s ⟨u, e⟩ now).2 u' e' =
      MemStorage.getFavorite s u' e' ∧
    MemStorage.getFavorite (MemStorage.removeFavorite s u e) u' e' =
      MemStorage.getFavorite s u' e' := by
  have hkeyne : favKey u e ≠ favKey u' e' := fun h => hne (favKey_inj h)
  have hfields : ∀ q ∈ s.favorites, q.1 = favKey u e →
      (fun q : String × Favorite => favPred u' e' q.2) q = false := by
    intro q hq h1
    have hq1 := hwf q hq
    have := favKey_inj (hq1 ▸ h1 : favKey q.2.userId q.2.eventId = favKey u e)
    exact favPred_false_of_ne hne q.2 this.1 this.2
  refine ⟨hkeyne, ?_, ?_⟩
  · rw [getFavorite_eq_find, getFavorite_eq_find, favorites_addFavorite,
      find?_mapValues, find?_mapValues,
      find?_entries_mapSet_frame _ _ _ _ (favPred_false_of_ne hne _ rfl rfl) hfields]
  · rw [getFavorite_eq_find, getFavorite_eq_find]
    show (mapValues (mapDelete s.favorites (favKey u e))).find? _ = _
    rw [find?_mapValues, find?_mapValues,
      find?_entries_mapDelete_frame _ _ _ hfields]

theorem favorite_ops_frame_witness :
    (FavKeyWF wStore1 ∧ ¬((2 : Nat) = 2 ∧ "x" = "y")) ∧
    favKey 2 "x" ≠ favKey 2 "y" ∧
    MemStorage.getFavorite (MemStorage.addFavorite wStore1 ⟨2, "x"⟩ 9).2 2 "y" =
      MemStorage.getFavorite wStore1 2 "y" ∧
    MemStorage.getFavorite (MemStorage.removeFavorite wStore1 2 "x") 2 "y" =
      MemStorage.getFavorite wStore1 2 "y" := by
  have h : FavKeyWF wStore1 := by
    unfold FavKeyWF wStore1 MemStorage.empty wFav
    decide
  have hne : ¬((2 : Nat) = 2 ∧ "x" = "y") := by decide
  exact ⟨⟨h, hne⟩, favorite_ops_frame wStore1 2 2 "x" "y" 9 h hne⟩

theorem mapHas_false_of_getFavorite_none (s : MemStorage) (u : Nat) (e : String)
    (hwf : FavKeyWF s) (h0 : MemStorage.getFavorite s u e = none) :
    mapHas s.favorites (favKey u e) = false := by
  by_contra hh
  have hh' : mapHas s.favorites (favKey u e) = true := by
    cases hx : mapHas s.favorites (favKey u e) with
    | false => exact absurd hx hh
    | true => rfl
  obtain ⟨p, hp, hpk⟩ := List.any_eq_true.1 hh'
  have h1 : p.1 = favKey u e := by simpa using hpk
  have hfields := favKey_inj ((hwf p hp).symm.trans h1)
  rw [getFavorite_eq_find] at h0
  apply List.find?_eq_none.1 h0 p.2 (List.mem_map.2 ⟨p, hp, rfl⟩)
  simp [favPred, hfields.1, hfields.2]

theorem postFavoriteRoute_authed (u : Nat) (e : String) (now : Nat) (s : MemStorage) :
    postFavoriteRoute (AuthState.authed u) e now s =
      (match MemStorage.getFavorite s u e with
        | some _ => ((400, "Event already in favorites"), s)
        | none =>
          ((201, "Added to favorites"), (MemStorage.addFavorite s ⟨u, e⟩ now).2)) := rfl

/-- C2: for an authenticated `POST /api/favorites/:eventId` on a well-keyed
store: when `getFavorite` finds an existing record the handler answers 400
("Event already in favorites") and leaves the store unchanged; when none
exists it answers 201 and the store then holds exactly one favorite record
for that (userId, eventId) pair. -/
theorem post_favorite_route_spec (s : MemStorage) (u : Nat) (e : String) (now : Nat)
    (hwf : FavKeyWF s) :
    (MemStorage.getFavorite s u e ≠ none →
      postFavoriteRoute (AuthState.authed u) e now s =
        ((400, "Event already in favorites"), s)) ∧
    (MemStorage.getFavorite s u e = none →
      (postFavoriteRoute (AuthState.authed u) e now s).1 = (201, "Added to favorites") ∧
      favCount (postFavoriteRoute (AuthState.authed u) e now s).2 u e = 1) := by
  constructor
  · intro hne
    cases hgf : MemStorage.getFavorite s u e with
    | none => exact absurd hgf hne
    | some f =>
      rw [postFavoriteRoute_authed, hgf]
  · intro h0
    have hroute : postFavoriteRoute (AuthState.authed u) e now s =
        ((201, "Added to favorites"), (MemStorage.addFavorite s ⟨u, e⟩ now).2) := by
      rw [postFavoriteRoute_authed, h0]
    refine ⟨by rw [hroute], ?_⟩
    rw [hroute]
    have hhas := mapHas_false_of_getFavorite_none s u e hwf h0
    unfold favCount
    rw [favorites_addFavorite]
    unfold mapSet
    rw [hhas]
    rw [if_neg (by simp)]
    unfold mapValues
    rw [List.map_append, List.countP_append]
    have hz : (s.favorites.map (fun p => p.2)).countP (favPred u e) = 0 := by
      apply List.countP_eq_zero.2
      intro f hf
      rw [getFavorite_eq_find] at h0
      exact List.find?_eq_none.1 h0 f hf
    rw [hz]
    simp [favPred]

theorem post_favorite_route_spec_witness :
    (FavKeyWF wStore1 ∧ MemStorage.getFavorite wStore1 2 "x" ≠ none ∧
      MemStorage.getFavorite wStore1 1 "evt-42" = none) ∧
    postFavoriteRoute (AuthState.authed 2) "x" 7 wStore1 =
      ((400, "Event already in favorites"), wStore1) ∧
    ((postFavoriteRoute (AuthState.authed 1) "evt-42" 7 wStore1).1 =
      (201, "Added to favorites") ∧
      favCount (postFavoriteRoute (AuthState.authed 1) "evt-42" 7 wStore1).2 1 "evt-42" = 1) := by
  have h : FavKeyWF wStore1 := by
    unfold FavKeyWF wStore1 MemStorage.empty wFav
    decide
  have h1 : MemStorage.getFavorite wStore1 2 "x" ≠ none := by decide
  have h2 : MemStorage.getFavorite wStore1 1 "evt-42" = none := by decide
  exact ⟨⟨h, h1, h2⟩, (post_favorite_route_spec wStore1 2 "x" 7 h).1 h1,
    (post_favorite_route_spec wStore1 1 "evt-42" 7 h).2 h2⟩

theorem favKeyWF_addFavorite (s : MemStorage) (d : InsertFavorite) (now : Nat)
    (hwf : FavKeyWF s) : FavKeyWF (MemStorage.addFavorite s d now).2 := by
  intro p hp
  rcases mem_mapSet hp with h | h
  · exact hwf p h
  · rw [h]

theorem favKeysNodup_addFavorite (s : MemStorage) (d : InsertFavorite) (now : Nat)
    (hnd : FavKeysNodup s) : FavKeysNodup (MemStorage.addFavorite s d now).2 := by
  unfold FavKeysNodup at *
  rw [favorites_addFavorite]
  unfold mapSet
  by_cases hhas : mapHas s.favorites (favKey d.userId d.eventId)
  · rw [if_pos hhas, List.map_map]
    have : s.favorites.map ((fun p => p.1) ∘
        (fun p => if p.1 == favKey d.userId d.eventId
          then (favKey d.userId d.eventId,
            { id := s.currentFavoriteId, userId := d.userId, eventId := d.eventId
              createdAt := now }) else p)) = s.favorites.map (fun p => p.1) := by
      apply List.map_congr_left
      intro p _
      by_cases hk : (p.1 == favKey d.userId d.eventId) = true
      · simp only [Function.comp_apply, if_pos hk]
        exact (by simpa using hk : p.1 = favKey d.userId d.eventId).symm
      · simp only [Function.comp_apply, if_neg hk]
    rw [this]
    exact hnd
  · rw [if_neg hhas, List.map_append]
    have hk : favKey d.userId d.eventId ∉ s.favorites.map (fun p => p.1) := by
      intro hmem
      obtain ⟨p, hp, hpk⟩ := List.mem_map.1 hmem
      apply hhas
      exact List.any_eq_true.2 ⟨p, hp, by simp [hpk]⟩
    simp [List.nodup_append, hnd, hk]

theorem countP_values_le_one (l : List (String × Favorite)) (k : String) (P : Favorite → Bool)
    (hk : ∀ p ∈ l, P p.2 = true → p.1 = k)
    (hnd : (l.map (fun p => p.1)).Nodup) :
    (mapValues l).countP P ≤ 1 := by
  induction l with
  | nil => simp [mapValues]
  | cons a t ih =>
    rw [List.map_cons, List.nodup_cons] at hnd
    unfold mapValues
    rw [List.map_cons, List.countP_cons]
    by_cases hp : P a.2 = true
    · have ha : a.1 = k := hk a (List.mem_cons_self a t) hp
      have hz : (t.map (fun p => p.2)).countP P = 0 := by
        apply List.countP_eq_zero.2
        intro f hf hfp
        obtain ⟨p, hpt, rfl⟩ := List.mem_map.1 hf
        have hpk := hk p (List.mem_cons_of_mem a hpt) hfp
        have hmem : a.1 ∈ List.map (fun p => p.1) t := by
          rw [ha, ← hpk]
          exact List.mem_map.2 ⟨p, hpt, rfl⟩
        exact hnd.1 hmem
      unfold mapValues at hz
      rw [hz]
      simp [hp]
    · have iht := ih (fun p hpt hP => hk p (List.mem_cons_of_mem a hpt) hP) hnd.2
      unfold mapValues at iht
      simp only [hp, if_false]
      simpa using iht

theorem countP_filterMap_le {α β : Type} (l : List α) (g : α → Option β)
    (q : β → Bool) (r : α → Bool)
    (h : ∀ a ∈ l, ∀ b, g a = some b → q b = true → r a = true) :
    (l.filterMap g).countP q ≤ l.countP r := by
  induction l with
  | nil => simp
  | cons a t ih =>
    have iht := ih (fun x hx => h x (List.mem_cons_of_mem a hx))
    cases hga : g a with
    | none =>
      rw [List.filterMap_cons_none hga, List.countP_cons]
      exact le_trans iht (Nat.le_add_right _ _)
    | some b =>
      rw [List.filterMap_cons_some hga, List.countP_cons, List.countP_cons]
      by_cases hqb : q b = true
      · have hra := h a (List.mem_cons_self a t) b hga hqb
        rw [hqb, hra]
        simp only [if_true]
        omega
      · rw [Bool.not_eq_true] at hqb
        rw [hqb]
        simp only [Bool.false_eq_true, if_false]
        have hz : (0 : Nat) ≤ if r a = true then 1 else 0 := Nat.zero_le _
        omega

theorem mapGet_event_id (s : MemStorage) (hev : EventKeyWF s) (k : String) (ev : Event)
    (h : mapGet s.events k = some ev) : ev.id = k := by
  obtain ⟨p, hp, hpk, hpv⟩ := mapGet_some h
  have h1 := hev p hp
  have hk : p.1 = k := by simpa using hpk
  rw [← hpv, ← h1, hk]

theorem getUserFavorites_countP_le_one (s : MemStorage) (u : Nat) (e : String)
    (hwf : FavKeyWF s) (hnd : FavKeysNodup s) (hev : EventKeyWF s) :
    ((MemStorage.getUserFavorites s u).countP (fun ev => ev.id == e)) ≤ 1 := by
  unfold MemStorage.getUserFavorites
  have hrw : (((mapValues s.favorites).filter (fun fav => fav.userId == u)).map
      (fun fav => mapGet s.events fav.eventId)).filterMap id =
      ((mapValues s.favorites).filter (fun fav => fav.userId == u)).filterMap
        (fun fav => mapGet s.events fav.eventId) := by
    rw [List.filterMap_map]
    rfl
  rw [hrw]
  calc (((mapValues s.favorites).filter (fun fav => fav.userId == u)).filterMap
          (fun fav => mapGet s.events fav.eventId)).countP (fun ev => ev.id == e)
      ≤ ((mapValues s.favorites).filter (fun fav => fav.userId == u)).countP
          (favPred u e) := by
        apply countP_filterMap_le
        intro f hf ev hget hq
        have hu : (f.userId == u) = true := (List.mem_filter.1 hf).2
        have hide : ev.id = f.eventId := mapGet_event_id s hev f.eventId ev hget
        have he : f.eventId = e := by
          rw [← hide]
          simpa using hq
        simp [favPred, hu, he]
    _ ≤ (mapValues s.favorites).countP (favPred u e) := by
        rw [List.countP_filter]
        apply List.countP_mono_left
        intro f _ hf
        rw [Bool.and_eq_true] at hf
        exact hf.1
    _ ≤ 1 := by
        apply countP_values_le_one _ (favKey u e)
        · intro p hp hP
          have hfields : p.2.userId = u ∧ p.2.eventId = e := by
            have := hP
            unfold favPred at this
            simp only [Bool.and_eq_true, beq_iff_eq] at this
            exact this
          rw [hwf p hp, hfields.1, hfields.2]
        · exact hnd

theorem kv_mem_mapSet {α β : Type} [BEq α] [LawfulBEq α] (m : List (α × β)) (k : α) (v : β) :
    (k, v) ∈ mapSet m k v := by
  unfold mapSet
  by_cases hhas : mapHas m k
  · rw [if_pos hhas]
    obtain ⟨p, hp, hpk⟩ := List.any_eq_true.1 hhas
    exact List.mem_map.2 ⟨p, hp, by simp [hpk]⟩
  · rw [if_neg hhas]
    exact List.mem_append.2 (Or.inr (List.mem_singleton.2 rfl))

theorem favCount_addFavorite_eq_one (s : MemStorage) (u : Nat) (e : String) (now : Nat)
    (hwf : FavKeyWF s) (hnd : FavKeysNodup s) :
    favCount (MemStorage.addFavorite s ⟨u, e⟩ now).2 u e = 1 := by
  have hle : favCount (MemStorage.addFavorite s ⟨u, e⟩ now).2 u e ≤ 1 := by
    unfold favCount
    apply countP_values_le_one _ (favKey u e)
    · intro p hp hP
      have hwf2 := favKeyWF_addFavorite s ⟨u, e⟩ now hwf
      have hfields : p.2.userId = u ∧ p.2.eventId = e := by
        unfold favPred at hP
        simp only [Bool.and_eq_true, beq_iff_eq] at hP
        exact hP
      rw [hwf2 p hp, hfields.1, hfields.2]
    · exact favKeysNodup_addFavorite s ⟨u, e⟩ now hnd
  have hpos : 0 < favCount (MemStorage.addFavorite s ⟨u, e⟩ now).2 u e := by
    unfold favCount
    apply List.countP_pos_iff.2
    refine ⟨{ id := s.currentFavoriteId, userId := u, eventId := e, createdAt := now }, ?_, ?_⟩
    · rw [favorites_addFavorite]
      exact List.mem_map.2 ⟨_, kv_mem_mapSet _ _ _, rfl⟩
    · simp [favPred]
  omega

/-- C3: for every (user, event) pair, calling `addFavorite` twice with the
same pair, on a well-keyed duplicate-free store, leaves exactly one stored
favorite record for the pair (the second insert overwrites the first under
the composite storage key), and `getUserFavorites` then yields an event
with that id at most once. -/
theorem addFavorite_twice_at_most_once (s : MemStorage) (u : Nat) (e : String)
    (now now' : Nat) (hwf : FavKeyWF s) (hnd : FavKeysNodup s) (hev : EventKeyWF s) :
    favCount
      (MemStorage.addFavorite (MemStorage.addFavorite s ⟨u, e⟩ now).2 ⟨u, e⟩ now').2 u e = 1 ∧
    ((MemStorage.getUserFavorites
        (MemStorage.addFavorite (MemStorage.addFavorite s ⟨u, e⟩ now).2 ⟨u, e⟩ now').2
        u).countP (fun ev => ev.id == e)) ≤ 1 := by
  constructor
  · exact favCount_addFavorite_eq_one _ u e now'
      (favKeyWF_addFavorite s ⟨u, e⟩ now hwf)
      (favKeysNodup_addFavorite s ⟨u, e⟩ now hnd)
  · exact getUserFavorites_countP_le_one _ u e
      (favKeyWF_addFavorite _ ⟨u, e⟩ now' (favKeyWF_addFavorite s ⟨u, e⟩ now hwf))
      (favKeysNodup_addFavorite _ ⟨u, e⟩ now' (favKeysNodup_addFavorite s ⟨u, e⟩ now hnd))
      hev

theorem addFavorite_twice_at_most_once_witness :
    (FavKeyWF wStore1 ∧ FavKeysNodup wStore1 ∧ EventKeyWF wStore1) ∧
    favCount
      (MemStorage.addFavorite (MemStorage.addFavorite wStore1 ⟨1, "evt-42"⟩ 3).2
        ⟨1, "evt-42"⟩ 4).2 1 "evt-42" = 1 ∧
    ((MemStorage.getUserFavorites
        (MemStorage.addFavorite (MemStorage.addFavorite wStore1 ⟨1, "evt-42"⟩ 3).2
          ⟨1, "evt-42"⟩ 4).2 1).countP (fun ev => ev.id == "evt-42")) ≤ 1 := by
  have h1 : FavKeyWF wStore1 := by
    unfold FavKeyWF wStore1 MemStorage.empty wFav
    decide
  have h2 : FavKeysNodup wStore1 := by
    unfold FavKeysNodup wStore1 MemStorage.empty wFav
    decide
  have h3 : EventKeyWF wStore1 := by
    unfold EventKeyWF wStore1 MemStorage.empty wFav
    decide
  exact ⟨⟨h1, h2, h3⟩, addFavorite_twice_at_most_once wStore1 1 "evt-42" 3 4 h1 h2 h3⟩

/-- C4: every favorites route (list, add, remove, check) answers an
unauthenticated request with status 401 and leaves the entire store state
unchanged, performing no favorite-store access. -/
theorem favorites_routes_unauthenticated (s : MemStorage) (eventId : String) (now : Nat) :
    getFavoritesRoute AuthState.anon s = ((401, none), s) ∧
    postFavoriteRoute AuthState.anon eventId now s = ((401, "Unauthorized"), s) ∧
    deleteFavoriteRoute AuthState.anon eventId s = ((401, "Unauthorized"), s) ∧
    checkFavoriteRoute AuthState.anon eventId s = ((401, none), s) :=
  ⟨rfl, rfl, rfl, rfl⟩

theorem find?_values_replace {α β : Type} [BEq α] [LawfulBEq α]
    (l : List (α × β)) (k : α) (v : β) (p : β → Bool)
    (hall : ∀ q ∈ l, p q.2 = false) (hv : p v = true) (hhas : mapHas l k = true) :
    (mapValues (l.map (fun q => if q.1 == k then (k, v) else q))).find? p = some v := by
  induction l with
  | nil => simp [mapHas] at hhas
  | cons a t ih =>
    by_cases hk : (a.1 == k) = true
    · unfold mapValues
      rw [List.map_cons, List.map_cons, if_pos hk]
      rw [List.find?_cons_of_pos _ (by simpa using hv)]
    · have hhas' : mapHas t k = true := by
        unfold mapHas at hhas ⊢
        rcases List.any_eq_true.1 hhas with ⟨q, hq, hqk⟩
        rcases List.mem_cons.1 hq with rfl | hqt
        · exact absurd hqk hk
        · exact List.any_eq_true.2 ⟨q, hqt, hqk⟩
      have iht := ih (fun q hq => hall q (List.mem_cons_of_mem a hq)) hhas'
      unfold mapValues at iht ⊢
      rw [List.map_cons, List.map_cons, if_neg hk]
      rw [List.find?_cons_of_neg _ (by simp [hall a (List.mem_cons_self a t)])]
      exact iht

theorem values_mapSet_find?_eq {α β : Type} [BEq α] [LawfulBEq α]
    (l : List (α × β)) (k : α) (v : β) (p : β → Bool)
    (hall : ∀ q ∈ l, p q.2 = false) (hv : p v = true) :
    (mapValues (mapSet l k v)).find? p = some v := by
  unfold mapSet
  by_cases hhas : mapHas l k
  · rw [if_pos hhas]
    exact find?_values_replace l k v p hall hv hhas
  · rw [if_neg hhas]
    unfold mapValues
    rw [List.map_append]
    rw [find?_append_left_none _ _ p (by
      intro b hb
      obtain ⟨q, hq, rfl⟩ := List.mem_map.1 hb
      exact hall q hq)]
    simp [hv]

/-- C5: assuming no stored user already carries the username (the caller's
required pre-check), after `createUser` returns record `r`,
`getUserByUsername` on that username returns a record whose id equals
`r.id`. -/
theorem createUser_getUserByUsername (s : MemStorage) (username passwordHash : String)
    (h : ∀ u ∈ mapValues s.users, u.username ≠ username) :
    ∃ u, MemStorage.getUserByUsername
        (MemStorage.createUser s ⟨username, passwordHash⟩).2 username = some u ∧
      u.id = (MemStorage.createUser s ⟨username, passwordHash⟩).1.id := by
  refine ⟨(MemStorage.createUser s ⟨username, passwordHash⟩).1, ?_, rfl⟩
  unfold MemStorage.getUserByUsername MemStorage.createUser
  apply values_mapSet_find?_eq
  · intro q hq
    have hne := h q.2 (List.mem_map.2 ⟨q, hq, rfl⟩)
    simp [beq_eq_false_iff_ne, hne]
  · simp

/-- A sample store with one registered user, used by witnesses. -/
def wStore2 : MemStorage :=
  { MemStorage.empty with
    users := [(1, { id := 1, username := "bob", password := "h" })], currentUserId := 2 }

theorem createUser_getUserByUsername_witness :
    (∀ u ∈ mapValues wStore2.users, u.username ≠ "alice") ∧
    ∃ u, MemStorage.getUserByUsername
        (MemStorage.createUser wStore2 ⟨"alice", "hash"⟩).2 "alice" = some u ∧
      u.id = (MemStorage.createUser wStore2 ⟨"alice", "hash"⟩).1.id := by
  have h : ∀ u ∈ mapValues wStore2.users, u.username ≠ "alice" := by
    unfold wStore2 MemStorage.empty mapValues
    decide
  exact ⟨h, createUser_getUserByUsername wStore2 "alice" "hash" h⟩

theorem loginRoute_eq (s : MemStorage) (bc : String → String → Bool)
    (username password : String) :
    loginRoute s bc username password =
      (match MemStorage.getUserByUsername s username with
        | none => LoginResponse.err 401 "User is not registered"
        | some user =>
          if bc password user.password then LoginResponse.ok user
          else LoginResponse.err 401 "Incorrect password") := by
  unfold loginRoute localStrategyVerify
  cases MemStorage.getUserByUsername s username with
  | none => rfl
  | some user =>
    by_cases hb : bc password user.password = true
    · simp [hb]
    · rw [Bool.not_eq_true] at hb
      simp [hb]

/-- C6: a login attempt with an unknown username yields a 401 error of kind
"User is not registered"; a login attempt for an existing user whose
password fails the bcrypt comparison against the stored hash yields a 401
error of kind "Incorrect password"; the two error kinds are
distinguishable. -/
theorem login_route_spec (s : MemStorage) (bcryptCompare : String → String → Bool)
    (username password : String) :
    (MemStorage.getUserByUsername s username = none →
      loginRoute s bcryptCompare username password =
        LoginResponse.err 401 "User is not registered") ∧
    (∀ u, MemStorage.getUserByUsername s username = some u →
      bcryptCompare password u.password = false →
      loginRoute s bcryptCompare username password =
        LoginResponse.err 401 "Incorrect password") ∧
    "User is not registered" ≠ "Incorrect password" := by
  refine ⟨?_, ?_, by decide⟩
  · intro h0
    rw [loginRoute_eq, h0]
  · intro u hu hbc
    rw [loginRoute_eq, hu]
    simp [hbc]

/-- The bcrypt comparison oracle used by concrete-input witnesses. -/
def wBc : String → String → Bool := fun password hash => password == hash

/-- A sample store with a registered user "alice", used by witnesses. -/
def wStore3 : MemStorage :=
  { MemStorage.empty with
    users := [(1, { id := 1, username := "alice", password := "secret1" })]
    currentUserId := 2 }

theorem login_route_spec_witness :
    (MemStorage.getUserByUsername wStore3 "bob" = none ∧
      MemStorage.getUserByUsername wStore3 "alice" =
        some { id := 1, username := "alice", password := "secret1" } ∧
      wBc "wrongpass" "secret1" = false) ∧
    loginRoute wStore3 wBc "bob" "pw" = LoginResponse.err 401 "User is not registered" ∧
    loginRoute wStore3 wBc "alice" "wrongpass" =
      LoginResponse.err 401 "Incorrect password" := by
  have h0 : MemStorage.getUserByUsername wStore3 "bob" = none := by decide
  have hu : MemStorage.getUserByUsername wStore3 "alice" =
      some { id := 1, username := "alice", password := "secret1" } := by decide
  have hbc : wBc "wrongpass" "secret1" = false := by decide
  exact ⟨⟨h0, hu, hbc⟩, (login_route_spec wStore3 wBc "bob" "pw").1 h0,
    (login_route_spec wStore3 wBc "alice" "wrongpass").2.1 _ hu hbc⟩

/-- C8: `getUserFavorites(u)` returns exactly the cached event records the
user has favorited — an element of the result is a cache hit under its own
id joined from one of the user's favorites — and favorites whose event id
misses the cache are silently omitted, so the result is never longer than
the user's stored favorite count. -/
theorem getUserFavorites_spec (s : MemStorage) (u : Nat) (hev : EventKeyWF s) :
    (∀ ev, ev ∈ MemStorage.getUserFavorites s u ↔
      (mapGet s.events ev.id = some ev ∧
        ∃ f ∈ mapValues s.favorites, f.userId = u ∧ f.eventId = ev.id)) ∧
    (MemStorage.getUserFavorites s u).length ≤
      ((mapValues s.favorites).filter (fun f => f.userId == u)).length := by
  have hrw : MemStorage.getUserFavorites s u =
      ((mapValues s.favorites).filter (fun fav => fav.userId == u)).filterMap
        (fun fav => mapGet s.events fav.eventId) := by
    unfold MemStorage.getUserFavorites
    rw [List.filterMap_map]
    rfl
  constructor
  · intro ev
    rw [hrw]
    constructor
    · intro hmem
      obtain ⟨f, hf, hgf⟩ := List.mem_filterMap.1 hmem
      have hu : (f.userId == u) = true := (List.mem_filter.1 hf).2
      have hf0 : f ∈ mapValues s.favorites := (List.mem_filter.1 hf).1
      have hid : ev.id = f.eventId := mapGet_event_id s hev f.eventId ev hgf
      refine ⟨by rw [hid]; exact hgf, f, hf0, by simpa using hu, hid.symm⟩
    · rintro ⟨hget, f, hf0, hfu, hfe⟩
      apply List.mem_filterMap.2
      refine ⟨f, List.mem_filter.2 ⟨hf0, by simp [hfu]⟩, ?_⟩
      rw [hfe]
      exact hget
  · rw [hrw]
    exact List.length_filterMap_le _ _

/-- A sample cached event used by witnesses. -/
def wEvent : Event :=
  { id := "e1", titleJa := "t", titleEn := "t", descriptionJa := "d"
    descriptionEn := "d", startDate := "2024-01-01", endDate := none, location := "l"
    district := "central", imageUrl := "u" }

/-- A sample store where user 1 has one favorite with a cache hit and one
whose event id is absent from the cache, used by witnesses. -/
def wStore4 : MemStorage :=
  { MemStorage.empty with
    favorites :=
      [(favKey 1 "e1", { id := 1, userId := 1, eventId := "e1", createdAt := 0 }),
       (favKey 1 "gone", { id := 2, userId := 1, eventId := "gone", createdAt := 0 })]
    events := [("e1", wEvent)]
    currentFavoriteId := 3 }

theorem getUserFavorites_spec_witness :
    EventKeyWF wStore4 ∧
    (MemStorage.getUserFavorites wStore4 1).length ≤
      ((mapValues wStore4.favorites).filter (fun f => f.userId == 1)).length := by
  have hev : EventKeyWF wStore4 := by
    unfold EventKeyWF wStore4 MemStorage.empty wEvent
    decide
  exact ⟨hev, (getUserFavorites_spec wStore4 1 hev).2⟩

/-- C9: `GET /api/events/:id` answers 404 when the fetch yields no event,
200 with the event on success, and 500 when the fetch raises a source
failure. -/
theorem get_event_by_id_route_spec :
    getEventByIdRoute (Except.ok none) = EventByIdResponse.notFound ∧
    (∀ ev, getEventByIdRoute (Except.ok (some ev)) = EventByIdResponse.ok ev) ∧
    ∀ err, getEventByIdRoute (Except.error err) = EventByIdResponse.serverError :=
  ⟨rfl, fun _ => rfl, fun _ => rfl⟩

theorem getEventsRoute_eq (odf odt dist : Option String) :
    getEventsRoute ⟨odf, odt, dist⟩ =
      (if jsFalsyStr odf || jsFalsyStr odt then
        EventsResponse.badRequest "dateFrom and dateTo are required"
      else if !(isDateFormat (odf.getD "") && isDateFormat (odt.getD "")) then
        EventsResponse.badRequest "Invalid date format. Please use YYYY-MM-DD format."
      else if jsDateGT (odf.getD "") (odt.getD "") then
        EventsResponse.badRequest "dateFrom must be before or equal to dateTo"
      else EventsResponse.fetch ⟨odf.getD "", odt.getD "", dist⟩) := rfl

theorem isDateFormat_empty : isDateFormat "" = false := rfl

/-- C7: `GET /api/events` answers 400 without invoking the external fetch
whenever `dateFrom` or `dateTo` is missing, either fails the
`^\d{4}-\d{2}-\d{2}$` pattern, or the parsed `dateFrom` compares strictly
later than the parsed `dateTo` (comparisons involving an invalid parse are
false, as for JS `NaN`); the external fetch is invoked exactly when both
dates are present, match the pattern, and the parsed comparison does not
place `dateFrom` after `dateTo`. -/
theorem get_events_route_spec (q : EventsQuery) :
    ((∃ p, getEventsRoute q = EventsResponse.fetch p) ↔
      ((∃ sF, q.dateFrom = some sF ∧ isDateFormat sF = true) ∧
       (∃ sT, q.dateTo = some sT ∧ isDateFormat sT = true) ∧
       jsDateGT (q.dateFrom.getD "") (q.dateTo.getD "") = false)) ∧
    ((∃ msg, getEventsRoute q = EventsResponse.badRequest msg) ∨
      ∃ p, getEventsRoute q = EventsResponse.fetch p) := by
  obtain ⟨odf, odt, dist⟩ := q
  constructor
  · cases odf with
    | none => simp [getEventsRoute_eq, jsFalsyStr]
    | some sF =>
      cases odt with
      | none => simp [getEventsRoute_eq, jsFalsyStr]
      | some sT =>
        by_cases hF : sF = ""
        · subst hF
          simp [getEventsRoute_eq, jsFalsyStr, isDateFormat_empty]
        · by_cases hT : sT = ""
          · subst hT
            simp [getEventsRoute_eq, jsFalsyStr, isDateFormat_empty,
              beq_eq_false_iff_ne, hF]
          · have hfal : (jsFalsyStr (some sF) || jsFalsyStr (some sT)) = false := by
              simp [jsFalsyStr, beq_eq_false_iff_ne, hF, hT]
            by_cases hfF : isDateFormat sF = true
            · by_cases hfT : isDateFormat sT = true
              · by_cases hgt : jsDateGT sF sT = true
                · simp [getEventsRoute_eq, hfal, hfF, hfT, hgt]
                · have hgt' : jsDateGT sF sT = false := by
                    revert hgt
                    cases jsDateGT sF sT <;> simp
                  simp [getEventsRoute_eq, hfal, hfF, hfT, hgt']
              · have h' : isDateFormat sT = false := by
                  revert hfT
                  cases isDateFormat sT <;> simp
                simp [getEventsRoute_eq, hfal, hfF, h']
            · have h' : isDateFormat sF = false := by
                revert hfF
                cases isDateFormat sF <;> simp
              simp [getEventsRoute_eq, hfal, h']
  · cases h : getEventsRoute ⟨odf, odt, dist⟩ with
    | badRequest msg => exact Or.inl ⟨msg, rfl⟩
    | fetch p => exact Or.inr ⟨p, rfl⟩

theorem favorites_routes_unauthenticated_witness :
    getFavoritesRoute AuthState.anon wStore1 = ((401, none), wStore1) ∧
    postFavoriteRoute AuthState.anon "evt-42" 0 wStore1 = ((401, "Unauthorized"), wStore1) ∧
    deleteFavoriteRoute AuthState.anon "evt-42" wStore1 = ((401, "Unauthorized"), wStore1) ∧
    checkFavoriteRoute AuthState.anon "evt-42" wStore1 = ((401, none), wStore1) :=
  favorites_routes_unauthenticated wStore1 "evt-42" 0

theorem get_events_route_spec_witness :
    ∃ p, getEventsRoute ⟨some "2024-01-01", some "2024-12-31", none⟩ =
      EventsResponse.fetch p :=
  (get_events_route_spec ⟨some "2024-01-01", some "2024-12-31", none⟩).1.2
    ⟨⟨"2024-01-01", rfl, by decide⟩, ⟨"2024-12-31", rfl, by decide⟩, by decide⟩
